import Mathlib

/-!
# Verification of the Monarch autonomy kernel (`app.py`)

A shallow embedding of the tick orchestrator, the governance gate and the
hash-chained audit ledger of `app.py`, with theorems checking the
natural-language specification against the code.

Modelling conventions:
* Python `float` values (risk scores, thresholds, timestamps) are modelled as
  `ℚ`.  The governance gate only *compares* scores with thresholds — it never
  computes with them — and non-NaN float comparison agrees with rational
  comparison, so this is faithful for every claim below.
* Python `str` is `String`, `Dict[str, Any]` is an association list over a
  JSON-like value type `JVal` (Python dicts preserve insertion order; the
  association list keeps that order).
* Calls to `uuid.uuid4()`, `time.time()` and `random.Random` are external
  effects; they are threaded through as explicit input streams (`ℕ → String`,
  `ℕ → ℚ`).  Each definition draws from its stream in the same order the
  Python code performs the corresponding calls.
* In-place mutation of `Proposal.status` / `Proposal.governance_notes` inside
  the governance stage is modelled by returning the updated proposal list
  alongside the decision list.
-/

set_option linter.unusedVariables false

/-- Rendering of a rational into a string, standing in for Python's float
formatting inside f-strings.  The exact digits never matter to any claim;
only that it is a function of the value. -/
def ratStr (q : ℚ) : String :=
  toString q.num ++ "/" ++ toString q.den

/-- `ProposalStatus` from `app.py`: the governance state machine's states. -/
inductive ProposalStatus where
  | PENDING
  | AUTO_APPROVED
  | REQUIRES_HUMAN
  | BLOCKED
  deriving DecidableEq, Repr

/-- `RiskLevel` from `app.py`. -/
inductive RiskLevel where
  | STABLE
  | ELEVATED
  | HIGH
  | CRITICAL
  deriving DecidableEq, Repr

/-- Python's `Enum.name` for `RiskLevel` (used in the risk audit payload). -/
def RiskLevel.name : RiskLevel → String
  | .STABLE => "STABLE"
  | .ELEVATED => "ELEVATED"
  | .HIGH => "HIGH"
  | .CRITICAL => "CRITICAL"

/-- JSON-like values: the model of Python's `Any` payloads (`Dict[str, Any]`
fields, `json.dumps`-serializable data).  Objects are association lists in
insertion order, exactly like Python dicts. -/
inductive JVal where
  | jnull
  | jbool (b : Bool)
  | jint (n : ℤ)
  | jnum (q : ℚ)
  | jstr (s : String)
  | jarr (elems : List JVal)
  | jobj (kvs : List (String × JVal))

/-- A Python `Dict[str, Any]` in insertion order. -/
abbrev JDict := List (String × JVal)

/-- `SensorFrame` from `app.py`. -/
structure SensorFrame where
  tick : ℕ
  ts : ℚ
  streams : JDict

/-- `WorldState` from `app.py`. -/
structure WorldState where
  tick : ℕ
  ts : ℚ
  facts : JDict
  health : List (String × ℚ)

/-- `RiskReport` from `app.py`. -/
structure RiskReport where
  tick : ℕ
  ts : ℚ
  score : ℚ
  level : RiskLevel
  clarity : ℚ
  drivers : List (String × ℚ)
  notes : String := ""

/-- `Intent` from `app.py`. -/
structure Intent where
  id : String
  kind : String
  priority : ℤ
  params : JDict := []
  rationale : String := ""

/-- `Proposal` from `app.py`. -/
structure Proposal where
  id : String
  tick : ℕ
  source_intent : String
  action : String
  bounds : JDict
  expected_effect : JDict
  status : ProposalStatus := .PENDING
  governance_notes : String := ""

/-- `Decision` from `app.py`. -/
structure Decision where
  id : String
  proposal_id : String
  tick : ℕ
  status : ProposalStatus
  operator : String
  comment : String := ""
  deriving DecidableEq, Repr

/-- `ActuationCommand` from `app.py`. -/
structure ActuationCommand where
  id : String
  tick : ℕ
  channel : String
  payload : JDict

/-- `AuditEntry` from `app.py`. -/
structure AuditEntry where
  id : String
  tick : ℕ
  ts : ℚ
  kind : String
  payload : JVal
  prev_hash : String
  hash : String

/-- `GovernanceConfig` from `app.py`, defaults included. -/
structure GovernanceConfig where
  max_auto_risk : ℚ := 40
  hard_block_risk : ℚ := 80
  require_human_for : List String := ["RETREAT", "EMERGENCY"]
  gate_open : Bool := false

/-- `TickResult` from `app.py`. -/
structure TickResult where
  tick : ℕ
  sensor_frame : SensorFrame
  world : WorldState
  risk : RiskReport
  intents : List Intent
  proposals : List Proposal
  decisions : List Decision
  actuation : List ActuationCommand
  audit_entries : List AuditEntry

/-!
## The governance gate (`DefaultGovernanceModule.run`)
-/

/-- The per-proposal branch of `DefaultGovernanceModule.run` in `app.py`:
the `if risk.score >= config.hard_block_risk ... elif not config.gate_open
... elif risk.score > config.max_auto_risk or p.source_intent in
config.require_human_for ... else ...` chain, returning the status and the
comment it assigns. -/
def governanceStatusComment (score : ℚ) (config : GovernanceConfig)
    (source_intent : String) : ProposalStatus × String :=
  if score ≥ config.hard_block_risk then
    (.BLOCKED, "Blocked: risk " ++ ratStr score ++ " ≥ hard stop")
  else if config.gate_open = false then
    (.REQUIRES_HUMAN, "Gate closed; human review required")
  else if score > config.max_auto_risk ∨ source_intent ∈ config.require_human_for then
    (.REQUIRES_HUMAN,
      "Risk " ++ ratStr score ++ " or intent " ++ source_intent ++ " above auto threshold")
  else
    (.AUTO_APPROVED, "Within auto-go envelope")

/-- The loop body of `DefaultGovernanceModule.run`: walks the proposal list,
updates each proposal's `status` / `governance_notes` in place (modelled by
returning the updated list) and emits one `Decision` per proposal.  `ids n`
is the value of the `n`-th `uuid.uuid4()` call of the loop. -/
def govRunAux (ids : ℕ → String) (risk : RiskReport) (config : GovernanceConfig) :
    ℕ → List Proposal → List Proposal × List Decision
  | _, [] => ([], [])
  | n, p :: rest =>
    let sc := governanceStatusComment risk.score config p.source_intent
    let pUpd := { p with status := sc.1, governance_notes := sc.2 }
    let d : Decision :=
      { id := ids n
        proposal_id := p.id
        tick := p.tick
        status := sc.1
        operator := if sc.1 = ProposalStatus.AUTO_APPROVED then "AUTO" else "HUMAN?"
        comment := sc.2 }
    let restRes := govRunAux ids risk config (n + 1) rest
    (pUpd :: restRes.1, d :: restRes.2)

/-- `DefaultGovernanceModule.run` from `app.py`.  `world` is passed by the
kernel but unused by the source body. -/
def DefaultGovernanceModule.run (ids : ℕ → String) (proposals : List Proposal)
    (world : WorldState) (risk : RiskReport) (config : GovernanceConfig) :
    List Proposal × List Decision :=
  govRunAux ids risk config 0 proposals

/-- The status precedence exactly as the specification words it (claim C1):
hard block first, then closed gate, then risk ceiling / forced-review kinds,
else auto approval.  Written from the spec's sentences, to be compared with
the gate translated from the source. -/
def specGateStatus (score : ℚ) (config : GovernanceConfig) (intentKind : String) :
    ProposalStatus :=
  if score ≥ config.hard_block_risk then .BLOCKED
  else if config.gate_open = false then .REQUIRES_HUMAN
  else if score > config.max_auto_risk ∨ intentKind ∈ config.require_human_for then
    .REQUIRES_HUMAN
  else .AUTO_APPROVED

theorem govRunAux_length (ids : ℕ → String) (risk : RiskReport)
    (config : GovernanceConfig) (n : ℕ) (ps : List Proposal) :
    (govRunAux ids risk config n ps).1.length = ps.length ∧
      (govRunAux ids risk config n ps).2.length = ps.length := by
  induction ps generalizing n with
  | nil => simp [govRunAux]
  | cons p rest ih =>
    simpa [govRunAux] using ih (n + 1)

theorem govRunAux_getElem (ids : ℕ → String) (risk : RiskReport)
    (config : GovernanceConfig) (n : ℕ) (ps : List Proposal) (i : ℕ)
    (hp : i < ps.length) (hd : i < (govRunAux ids risk config n ps).2.length)
    (hu : i < (govRunAux ids risk config n ps).1.length) :
    (govRunAux ids risk config n ps).2[i] =
      { id := ids (n + i)
        proposal_id := ps[i].id
        tick := ps[i].tick
        status := (governanceStatusComment risk.score config ps[i].source_intent).1
        operator :=
          if (governanceStatusComment risk.score config ps[i].source_intent).1 =
              ProposalStatus.AUTO_APPROVED then "AUTO" else "HUMAN?"
        comment := (governanceStatusComment risk.score config ps[i].source_intent).2 } ∧
      (govRunAux ids risk config n ps).1[i] =
      { ps[i] with
        status := (governanceStatusComment risk.score config ps[i].source_intent).1
        governance_notes :=
          (governanceStatusComment risk.score config ps[i].source_intent).2 } := by
  induction ps generalizing n i with
  | nil => simp at hp
  | cons p rest ih =>
    cases i with
    | zero => simp [govRunAux]
    | succ j =>
      have hp' : j < rest.length := by simpa using hp
      have hd' : j < (govRunAux ids risk config (n + 1) rest).2.length := by
        simpa using (govRunAux_length ids risk config (n + 1) rest).2 ▸ hp'
      have hu' : j < (govRunAux ids risk config (n + 1) rest).1.length := by
        simpa using (govRunAux_length ids risk config (n + 1) rest).1 ▸ hp'
      have := ih (n + 1) j hp' hd' hu'
      constructor
      · have h1 := this.1
        simp only [govRunAux, List.getElem_cons_succ]
        rw [h1]
        have harith : n + 1 + j = n + (j + 1) := by omega
        rw [harith]
      · have h2 := this.2
        simp only [govRunAux, List.getElem_cons_succ]
        rw [h2]

/-- The branch taken by the source gate agrees with the spec's precedence
order on the status component. -/
theorem governanceStatusComment_fst (score : ℚ) (config : GovernanceConfig)
    (source_intent : String) :
    (governanceStatusComment score config source_intent).1 =
      specGateStatus score config source_intent := by
  unfold governanceStatusComment specGateStatus
  split <;> [rfl; skip]
  split <;> [rfl; skip]
  split <;> rfl

/-- C1: for every proposal evaluated by the governance gate, the resulting
decision status follows the strict precedence: risk ≥ `hard_block_risk` gives
`BLOCKED` regardless of `gate_open` or intent kind; else a closed gate gives
`REQUIRES_HUMAN`; else risk above `max_auto_risk` or an intent kind in
`require_human_for` gives `REQUIRES_HUMAN`; else `AUTO_APPROVED`. -/
theorem gate_status_precedence (ids : ℕ → String) (proposals : List Proposal)
    (world : WorldState) (risk : RiskReport) (config : GovernanceConfig)
    (i : ℕ) (hp : i < proposals.length)
    (hd : i < (DefaultGovernanceModule.run ids proposals world risk config).2.length) :
    (DefaultGovernanceModule.run ids proposals world risk config).2[i].status =
      specGateStatus risk.score config proposals[i].source_intent := by
  have hu : i < (DefaultGovernanceModule.run ids proposals world risk config).1.length := by
    simpa [DefaultGovernanceModule.run,
      (govRunAux_length ids risk config 0 proposals).1] using hp
  have h := (govRunAux_getElem ids risk config 0 proposals i hp hd hu).1
  simp only [DefaultGovernanceModule.run] at h ⊢
  rw [h]
  exact governanceStatusComment_fst _ _ _

/-- A sample proposal used to evaluate theorems at concrete inputs. -/
def sampleProposal : Proposal where
  id := "p0"
  tick := 1
  source_intent := "CONTINUE"
  action := "Maintain current profile"
  bounds := []
  expected_effect := []

/-- A sample world state used to evaluate theorems at concrete inputs. -/
def sampleWorld : WorldState where
  tick := 1
  ts := 0
  facts := []
  health := []

/-- A sample risk report at score 90 (CRITICAL). -/
def sampleRisk90 : RiskReport where
  tick := 1
  ts := 0
  score := 90
  level := .CRITICAL
  clarity := 46
  drivers := []

/-- Concrete check of C1: a single proposal at risk score 90 with the gate
open and default thresholds is blocked. -/
theorem gate_status_precedence_witness :
    (0 : ℕ) < ([sampleProposal] : List Proposal).length ∧
    ∃ hd : 0 < (DefaultGovernanceModule.run (fun _ => "d0") [sampleProposal]
        sampleWorld sampleRisk90 { gate_open := true }).2.length,
      (DefaultGovernanceModule.run (fun _ => "d0") [sampleProposal]
        sampleWorld sampleRisk90 { gate_open := true }).2[0].status = .BLOCKED := by
  have hd : 0 < (DefaultGovernanceModule.run (fun _ => "d0") [sampleProposal]
      sampleWorld sampleRisk90 { gate_open := true }).2.length := by
    simp [DefaultGovernanceModule.run, govRunAux]
  refine ⟨by decide, hd, ?_⟩
  have h := gate_status_precedence (fun _ => "d0") [sampleProposal]
    sampleWorld sampleRisk90 { gate_open := true } 0 (by decide) hd
  rw [h]
  decide

/-- The gate's `if` chain never leaves a status at `PENDING`: every branch
assigns one of the three terminal states. -/
theorem governanceStatusComment_ne_pending (score : ℚ) (config : GovernanceConfig)
    (source_intent : String) :
    (governanceStatusComment score config source_intent).1 ≠ ProposalStatus.PENDING := by
  unfold governanceStatusComment
  split
  · simp
  split
  · simp
  split <;> simp

/-- C9: after governance runs, the status written back onto each proposal
equals its decision's status and the written governance notes equal the
decision's comment; the decision's operator is `"AUTO"` exactly when the
status is `AUTO_APPROVED` (and the human-review placeholder `"HUMAN?"`
otherwise), and no emitted decision has status `PENDING`. -/
theorem gate_writeback_consistent (ids : ℕ → String) (proposals : List Proposal)
    (world : WorldState) (risk : RiskReport) (config : GovernanceConfig)
    (i : ℕ)
    (hu : i < (DefaultGovernanceModule.run ids proposals world risk config).1.length)
    (hd : i < (DefaultGovernanceModule.run ids proposals world risk config).2.length) :
    (DefaultGovernanceModule.run ids proposals world risk config).1[i].status =
      (DefaultGovernanceModule.run ids proposals world risk config).2[i].status ∧
    (DefaultGovernanceModule.run ids proposals world risk config).1[i].governance_notes =
      (DefaultGovernanceModule.run ids proposals world risk config).2[i].comment ∧
    ((DefaultGovernanceModule.run ids proposals world risk config).2[i].operator = "AUTO" ↔
      (DefaultGovernanceModule.run ids proposals world risk config).2[i].status =
        ProposalStatus.AUTO_APPROVED) ∧
    (DefaultGovernanceModule.run ids proposals world risk config).2[i].status ≠
      ProposalStatus.PENDING := by
  have hp : i < proposals.length := by
    simpa [DefaultGovernanceModule.run,
      (govRunAux_length ids risk config 0 proposals).1] using hu
  obtain ⟨h2, h1⟩ := govRunAux_getElem ids risk config 0 proposals i hp
    (by simpa [DefaultGovernanceModule.run] using hd)
    (by simpa [DefaultGovernanceModule.run] using hu)
  simp only [DefaultGovernanceModule.run] at h1 h2 ⊢
  rw [h1, h2]
  refine ⟨rfl, rfl, ?_, governanceStatusComment_ne_pending _ _ _⟩
  by_cases hs : (governanceStatusComment risk.score config
      proposals[i].source_intent).1 = ProposalStatus.AUTO_APPROVED
  · simp [hs]
  · rw [if_neg hs]
    simp only [hs, iff_false]
    decide

/-- Concrete check of C9 at a blocked proposal. -/
theorem gate_writeback_consistent_witness :
    ∃ hu : 0 < (DefaultGovernanceModule.run (fun _ => "d0") [sampleProposal]
        sampleWorld sampleRisk90 { gate_open := true }).1.length,
    ∃ hd : 0 < (DefaultGovernanceModule.run (fun _ => "d0") [sampleProposal]
        sampleWorld sampleRisk90 { gate_open := true }).2.length,
      (DefaultGovernanceModule.run (fun _ => "d0") [sampleProposal]
          sampleWorld sampleRisk90 { gate_open := true }).1[0].status =
        (DefaultGovernanceModule.run (fun _ => "d0") [sampleProposal]
          sampleWorld sampleRisk90 { gate_open := true }).2[0].status := by
  have hu : 0 < (DefaultGovernanceModule.run (fun _ => "d0") [sampleProposal]
      sampleWorld sampleRisk90 { gate_open := true }).1.length := by
    simp [DefaultGovernanceModule.run, govRunAux]
  have hd : 0 < (DefaultGovernanceModule.run (fun _ => "d0") [sampleProposal]
      sampleWorld sampleRisk90 { gate_open := true }).2.length := by
    simp [DefaultGovernanceModule.run, govRunAux]
  exact ⟨hu, hd, (gate_writeback_consistent (fun _ => "d0") [sampleProposal]
    sampleWorld sampleRisk90 { gate_open := true } 0 hu hd).1⟩

/-- Running the gate loop with two different uuid draws agrees on everything
except the freshly drawn decision ids: the updated proposals are identical,
and the decisions agree field-by-field apart from `id`. -/
theorem govRunAux_ids_invariant (ids₁ ids₂ : ℕ → String) (risk : RiskReport)
    (config : GovernanceConfig) (n₁ n₂ : ℕ) (ps : List Proposal) :
    (govRunAux ids₁ risk config n₁ ps).1 = (govRunAux ids₂ risk config n₂ ps).1 ∧
    List.Forall₂ (fun d₁ d₂ =>
        d₁.proposal_id = d₂.proposal_id ∧ d₁.tick = d₂.tick ∧ d₁.status = d₂.status ∧
        d₁.operator = d₂.operator ∧ d₁.comment = d₂.comment)
      (govRunAux ids₁ risk config n₁ ps).2 (govRunAux ids₂ risk config n₂ ps).2 := by
  induction ps generalizing n₁ n₂ with
  | nil => simp [govRunAux]
  | cons p rest ih =>
    obtain ⟨ih1, ih2⟩ := ih (n₁ + 1) (n₂ + 1)
    refine ⟨by simp [govRunAux, ih1], ?_⟩
    simp only [govRunAux]
    exact List.Forall₂.cons ⟨rfl, rfl, rfl, rfl, rfl⟩ ih2

/-- C8 counterexample: applying the gate twice to the *same* proposals, world
state, risk report and configuration does not yield identical decisions —
each run draws fresh `uuid.uuid4()` decision ids (modelled by the two id
streams, one per invocation), so the `id` fields of the two decision lists
differ. -/
theorem gate_determinism_counterexample :
    (DefaultGovernanceModule.run (fun _ => "366ff179-0b1b-4f96-b88f-8b46ce1b9c74")
        [sampleProposal] sampleWorld sampleRisk90 { gate_open := true }).2 ≠
    (DefaultGovernanceModule.run (fun _ => "8b9f2a1e-6a57-4f0d-9f34-2f4c0f4b7a11")
        [sampleProposal] sampleWorld sampleRisk90 { gate_open := true }).2 := by
  simp only [DefaultGovernanceModule.run, govRunAux]
  intro h
  have := List.head_eq_of_cons_eq h
  have hid := congrArg Decision.id this
  simp only at hid
  exact absurd hid (by decide)

/-- C8 (amended): the gate is deterministic in everything except the decision
ids freshly drawn from `uuid.uuid4()`: two runs on identical (proposals,
world, risk, config) produce identical updated proposals, and decision lists
that agree on `proposal_id`, `tick`, `status`, `operator` and `comment`. -/
theorem gate_deterministic_up_to_ids (ids₁ ids₂ : ℕ → String)
    (proposals : List Proposal) (world : WorldState) (risk : RiskReport)
    (config : GovernanceConfig) :
    (DefaultGovernanceModule.run ids₁ proposals world risk config).1 =
      (DefaultGovernanceModule.run ids₂ proposals world risk config).1 ∧
    List.Forall₂ (fun d₁ d₂ =>
        d₁.proposal_id = d₂.proposal_id ∧ d₁.tick = d₂.tick ∧ d₁.status = d₂.status ∧
        d₁.operator = d₂.operator ∧ d₁.comment = d₂.comment)
      (DefaultGovernanceModule.run ids₁ proposals world risk config).2
      (DefaultGovernanceModule.run ids₂ proposals world risk config).2 :=
  govRunAux_ids_invariant ids₁ ids₂ risk config 0 0 proposals

/-!
## The default actuation module (`DefaultActuationModule.run`)
-/

/-- The loop body of `DefaultActuationModule.run`: one command per
`AUTO_APPROVED` decision, in decision order; `ids n` is the `n`-th
`uuid.uuid4()` call (one call per emitted command). -/
def actRunAux (ids : ℕ → String) : ℕ → List Decision → List ActuationCommand
  | _, [] => []
  | n, d :: rest =>
    if d.status = ProposalStatus.AUTO_APPROVED then
      { id := ids n
        tick := d.tick
        channel := "core"
        payload := [("decision_id", JVal.jstr d.id),
                    ("proposal_id", JVal.jstr d.proposal_id),
                    ("mode", JVal.jstr "EXECUTE")] } :: actRunAux ids (n + 1) rest
    else
      actRunAux ids n rest

/-- `DefaultActuationModule.run` from `app.py`.  `world` is passed but unused
by the source body. -/
def DefaultActuationModule.run (ids : ℕ → String) (decisions : List Decision)
    (world : WorldState) : List ActuationCommand :=
  actRunAux ids 0 decisions

/-- The actuation loop emits exactly the `AUTO_APPROVED` decisions' commands,
in order, each referencing its decision. -/
theorem actRunAux_filter (ids : ℕ → String) (n : ℕ) (ds : List Decision) :
    List.Forall₂ (fun d c => c.tick = d.tick ∧ c.channel = "core" ∧
        c.payload = [("decision_id", JVal.jstr d.id),
                     ("proposal_id", JVal.jstr d.proposal_id),
                     ("mode", JVal.jstr "EXECUTE")])
      (ds.filter fun d => decide (d.status = ProposalStatus.AUTO_APPROVED))
      (actRunAux ids n ds) := by
  induction ds generalizing n with
  | nil => simp [actRunAux]
  | cons d rest ih =>
    by_cases hs : d.status = ProposalStatus.AUTO_APPROVED
    · rw [List.filter_cons_of_pos (by simpa using hs)]
      simp only [actRunAux, if_pos hs]
      exact List.Forall₂.cons ⟨rfl, rfl, rfl⟩ (ih (n + 1))
    · rw [List.filter_cons_of_neg (by simpa using hs)]
      simp only [actRunAux, if_neg hs]
      exact ih n

/-- C6: for every tick's inputs under the default governance and actuation
modules, there is exactly one decision per proposal, produced in proposal
order and referencing that proposal's id; the actuation commands are exactly
one per `AUTO_APPROVED` decision, in decision order, each command's payload
referencing its decision's id. -/
theorem proposal_decision_actuation_cardinality (idsG idsA : ℕ → String)
    (proposals : List Proposal) (world : WorldState) (risk : RiskReport)
    (config : GovernanceConfig) :
    (DefaultGovernanceModule.run idsG proposals world risk config).2.length =
      proposals.length ∧
    (∀ i (hd : i < (DefaultGovernanceModule.run idsG proposals world risk config).2.length)
      (hp : i < proposals.length),
      (DefaultGovernanceModule.run idsG proposals world risk config).2[i].proposal_id =
        proposals[i].id) ∧
    (DefaultActuationModule.run idsA
        (DefaultGovernanceModule.run idsG proposals world risk config).2 world).length =
      ((DefaultGovernanceModule.run idsG proposals world risk config).2.filter
        fun d => decide (d.status = ProposalStatus.AUTO_APPROVED)).length ∧
    List.Forall₂ (fun d c => c.tick = d.tick ∧ c.channel = "core" ∧
        c.payload = [("decision_id", JVal.jstr d.id),
                     ("proposal_id", JVal.jstr d.proposal_id),
                     ("mode", JVal.jstr "EXECUTE")])
      ((DefaultGovernanceModule.run idsG proposals world risk config).2.filter
        fun d => decide (d.status = ProposalStatus.AUTO_APPROVED))
      (DefaultActuationModule.run idsA
        (DefaultGovernanceModule.run idsG proposals world risk config).2 world) := by
  have hf := actRunAux_filter idsA 0
    (DefaultGovernanceModule.run idsG proposals world risk config).2
  refine ⟨?_, ?_, ?_, hf⟩
  · exact (govRunAux_length idsG risk config 0 proposals).2
  · intro i hd hp
    have hu : i < (DefaultGovernanceModule.run idsG proposals world risk config).1.length := by
      simpa [DefaultGovernanceModule.run,
        (govRunAux_length idsG risk config 0 proposals).1] using hp
    have h := (govRunAux_getElem idsG risk config 0 proposals i hp
      (by simpa [DefaultGovernanceModule.run] using hd)
      (by simpa [DefaultGovernanceModule.run] using hu)).1
    simp only [DefaultGovernanceModule.run] at h ⊢
    rw [h]
  · exact hf.length_eq.symm

/-- The governance configuration the `__main__` wiring of `app.py` uses. -/
def mainConfig : GovernanceConfig where
  max_auto_risk := 45
  hard_block_risk := 85
  gate_open := true

/-- A sample risk report at score 30 (ELEVATED). -/
def sampleRisk30 : RiskReport where
  tick := 1
  ts := 0
  score := 30
  level := .ELEVATED
  clarity := 82
  drivers := []

/-- Concrete check of C6: one `CONTINUE` proposal at risk 30 with the gate
open yields one decision referencing it and one actuation command. -/
theorem proposal_decision_actuation_cardinality_witness :
    (DefaultGovernanceModule.run (fun _ => "g0") [sampleProposal] sampleWorld
        sampleRisk30 mainConfig).2.length = ([sampleProposal] : List Proposal).length ∧
    (∃ hd : 0 < (DefaultGovernanceModule.run (fun _ => "g0") [sampleProposal] sampleWorld
        sampleRisk30 mainConfig).2.length, ∃ hp : 0 < ([sampleProposal] : List Proposal).length,
      (DefaultGovernanceModule.run (fun _ => "g0") [sampleProposal] sampleWorld
        sampleRisk30 mainConfig).2[0].proposal_id = ([sampleProposal] : List Proposal)[0].id) ∧
    (DefaultActuationModule.run (fun _ => "a0")
        (DefaultGovernanceModule.run (fun _ => "g0") [sampleProposal] sampleWorld
          sampleRisk30 mainConfig).2 sampleWorld).length =
      ((DefaultGovernanceModule.run (fun _ => "g0") [sampleProposal] sampleWorld
          sampleRisk30 mainConfig).2.filter
        fun d => decide (d.status = ProposalStatus.AUTO_APPROVED)).length := by
  have h := proposal_decision_actuation_cardinality (fun _ => "g0") (fun _ => "a0")
    [sampleProposal] sampleWorld sampleRisk30 mainConfig
  have hd : 0 < (DefaultGovernanceModule.run (fun _ => "g0") [sampleProposal] sampleWorld
      sampleRisk30 mainConfig).2.length := by
    simp [DefaultGovernanceModule.run, govRunAux]
  exact ⟨h.1, ⟨hd, by decide, h.2.1 0 hd (by decide)⟩, h.2.2.1⟩

/-!
## Canonical JSON serialization (`json.dumps(data, sort_keys=True, default=str)`)

Python serializes the audit raw dict with sorted keys at every nesting level.
Floats appear only in positions whose exact rendering no claim depends on;
they are rendered through `ratStr`.
-/

/-- JSON string escaping (the two escapes that matter for injectivity of
quoting; `json.dumps` escapes more, which no claim depends on). -/
def jsonEscape (s : String) : String :=
  s.foldl
    (fun acc c =>
      acc ++ (if c = '"' then "\\\"" else if c = '\\' then "\\\\" else String.singleton c))
    ""

/-- A JSON-quoted string. -/
def jsonStr (s : String) : String := "\"" ++ jsonEscape s ++ "\""

/-- Code-point lexicographic comparison of character lists: the order Python
uses when sorting string keys. -/
def charListLe : List Char → List Char → Bool
  | [], _ => true
  | _ :: _, [] => false
  | a :: as, b :: bs =>
    if a.toNat < b.toNat then true
    else if b.toNat < a.toNat then false
    else charListLe as bs

/-- Code-point lexicographic order on strings. -/
def strLe (a b : String) : Bool := charListLe a.data b.data

/-- Sort an object's key-value pairs by key, as `sort_keys=True` does. -/
def sortKvs (kvs : List (String × JVal)) : List (String × JVal) :=
  List.insertionSort (fun a b => strLe a.1 b.1 = true) kvs

mutual

/-- Canonical serialization of a JSON value: `json.dumps` with
`sort_keys=True` and default separators. -/
def JVal.ser : JVal → String
  | .jnull => "null"
  | .jbool b => if b then "true" else "false"
  | .jint n => toString n
  | .jnum q => ratStr q
  | .jstr s => jsonStr s
  | .jarr xs => "[" ++ serList xs ++ "]"
  | .jobj kvs => "\x7b" ++ serKvs (sortKvs kvs) ++ "\x7d"
termination_by v => sizeOf v
decreasing_by
  all_goals simp_wf
  all_goals simp only [sortKvs]
  all_goals rw [List.Perm.sizeOf_eq_sizeOf (List.perm_insertionSort _ _)]
  all_goals omega

/-- Comma-separated serialization of array elements. -/
def serList : List JVal → String
  | [] => ""
  | [x] => JVal.ser x
  | x :: y :: rest => JVal.ser x ++ ", " ++ serList (y :: rest)
termination_by l => sizeOf l
decreasing_by
  all_goals simp_wf
  all_goals omega

/-- Comma-separated serialization of (already sorted) key-value pairs. -/
def serKvs : List (String × JVal) → String
  | [] => ""
  | [(k, v)] => jsonStr k ++ ": " ++ JVal.ser v
  | (k, v) :: p :: rest => jsonStr k ++ ": " ++ JVal.ser v ++ ", " ++ serKvs (p :: rest)
termination_by l => sizeOf l
decreasing_by
  all_goals simp_wf
  all_goals omega

end

/-!
## SHA-256 (`hashlib.sha256(s.encode("utf-8")).hexdigest()`)

A direct executable implementation over byte lists (`ℕ` values < 256), with
32-bit words as `ℕ` reduced mod `2^32`.
-/

/-- UTF-8 encoding of one code point. -/
def utf8EncodeChar (c : ℕ) : List ℕ :=
  if c < 0x80 then [c]
  else if c < 0x800 then
    [0xC0 ||| (c >>> 6), 0x80 ||| (c &&& 0x3F)]
  else if c < 0x10000 then
    [0xE0 ||| (c >>> 12), 0x80 ||| ((c >>> 6) &&& 0x3F), 0x80 ||| (c &&& 0x3F)]
  else
    [0xF0 ||| (c >>> 18), 0x80 ||| ((c >>> 12) &&& 0x3F),
     0x80 ||| ((c >>> 6) &&& 0x3F), 0x80 ||| (c &&& 0x3F)]

/-- UTF-8 bytes of a string (`s.encode("utf-8")`). -/
def utf8Bytes (s : String) : List ℕ :=
  (s.data.map (fun c => utf8EncodeChar c.toNat)).flatten

/-- Truncation to a 32-bit word. -/
def w32 (x : ℕ) : ℕ := x % 4294967296

/-- 32-bit right rotation. -/
def rotr32 (n x : ℕ) : ℕ := w32 ((x >>> n) ||| (x <<< (32 - n)))

/-- The 64 SHA-256 round constants (FIPS 180-4), in decimal. -/
def shaK : List ℕ :=
  [1116352408, 1899447441, 3049323471, 3921009573, 961987163, 1508970993,
   2453635748, 2870763221, 3624381080, 310598401, 607225278, 1426881987,
   1925078388, 2162078206, 2614888103, 3248222580, 3835390401, 4022224774,
   264347078, 604807628, 770255983, 1249150122, 1555081692, 1996064986,
   2554220882, 2821834349, 2952996808, 3210313671, 3336571891, 3584528711,
   113926993, 338241895, 666307205, 773529912, 1294757372, 1396182291,
   1695183700, 1986661051, 2177026350, 2456956037, 2730485921, 2820302411,
   3259730800, 3345764771, 3516065817, 3600352804, 4094571909, 275423344,
   430227734, 506948616, 659060556, 883997877, 958139571, 1322822218,
   1537002063, 1747873779, 1955562222, 2024104815, 2227730452, 2361852424,
   2428436474, 2756734187, 3204031479, 3329325298]

/-- The eight SHA-256 initial hash state words (FIPS 180-4), in decimal. -/
def shaH0 : List ℕ :=
  [1779033703, 3144134277, 1013904242, 2773480762,
   1359893119, 2600822924, 528734635, 1541459225]

/-- Big-endian bytes of `x` over `n` bytes. -/
def beBytes (n x : ℕ) : List ℕ :=
  (List.range n).map (fun i => (x >>> (8 * (n - 1 - i))) &&& 0xFF)

/-- SHA-256 message padding: `0x80`, zeros to 56 mod 64, then the bit length
over 8 big-endian bytes. -/
def shaPad (msg : List ℕ) : List ℕ :=
  let rem := (msg.length + 1) % 64
  let zeros := (64 + 56 - rem) % 64
  msg ++ [0x80] ++ List.replicate zeros 0 ++ beBytes 8 (msg.length * 8)

/-- Split a byte list into 64-byte blocks. -/
def chunks64 (l : List ℕ) : List (List ℕ) :=
  if h : l = [] then []
  else l.take 64 :: chunks64 (l.drop 64)
termination_by l.length
decreasing_by
  have : l.length ≠ 0 := fun hl => h (List.eq_nil_of_length_eq_zero hl)
  simp [List.length_drop]
  omega

/-- Big-endian 32-bit words of a 64-byte block. -/
def toWords : List ℕ → List ℕ
  | b0 :: b1 :: b2 :: b3 :: rest =>
    (((b0 <<< 8 ||| b1) <<< 8 ||| b2) <<< 8 ||| b3) :: toWords rest
  | _ => []

/-- The SHA-256 message schedule: extends 16 words to 64. -/
def msgSchedule (ws : List ℕ) : List ℕ :=
  (List.range 48).foldl
    (fun acc i =>
      let s0v := rotr32 7 (acc.getD (i + 1) 0) ^^^ rotr32 18 (acc.getD (i + 1) 0) ^^^
        (acc.getD (i + 1) 0 >>> 3)
      let s1v := rotr32 17 (acc.getD (i + 14) 0) ^^^ rotr32 19 (acc.getD (i + 14) 0) ^^^
        (acc.getD (i + 14) 0 >>> 10)
      acc ++ [w32 (acc.getD i 0 + s0v + acc.getD (i + 9) 0 + s1v)])
    ws

/-- One SHA-256 compression round. -/
def shaRound (ws : List ℕ) (st : List ℕ) (i : ℕ) : List ℕ :=
  match st with
  | [a, b, c, d, e, f, g, h] =>
    let S1 := rotr32 6 e ^^^ rotr32 11 e ^^^ rotr32 25 e
    let ch := (e &&& f) ^^^ ((4294967295 ^^^ e) &&& g)
    let temp1 := w32 (h + S1 + ch + shaK.getD i 0 + ws.getD i 0)
    let S0 := rotr32 2 a ^^^ rotr32 13 a ^^^ rotr32 22 a
    let maj := (a &&& b) ^^^ (a &&& c) ^^^ (b &&& c)
    let temp2 := w32 (S0 + maj)
    [w32 (temp1 + temp2), a, b, c, w32 (d + temp1), e, f, g]
  | other => other

/-- SHA-256 compression of one 64-byte block into the running state. -/
def shaCompress (hs : List ℕ) (block : List ℕ) : List ℕ :=
  let ws := msgSchedule (toWords block)
  let fin := (List.range 64).foldl (shaRound ws) hs
  List.zipWith (fun x y => w32 (x + y)) hs fin

/-- SHA-256 of a byte list: eight 32-bit state words. -/
def sha256Words (msg : List ℕ) : List ℕ :=
  (chunks64 (shaPad msg)).foldl shaCompress shaH0

/-- One lowercase hex digit. -/
def hexDigit (n : ℕ) : String :=
  ["0", "1", "2", "3", "4", "5", "6", "7", "8", "9",
   "a", "b", "c", "d", "e", "f"].getD n "0"

/-- Eight lowercase hex digits of a 32-bit word, most significant first. -/
def toHex8 (x : ℕ) : String :=
  (List.range 8).foldl (fun acc i => acc ++ hexDigit ((x >>> (4 * (7 - i))) &&& 15)) ""

/-- `hashlib.sha256(s.encode("utf-8")).hexdigest()`. -/
def sha256hex (s : String) : String :=
  ((sha256Words (utf8Bytes s)).map toHex8).foldl (fun acc w => acc ++ w) ""


/-!
## The audit ledger (`AutonomyKernel._audit` and the `sha256` helper)
-/

/-- The `raw` dict built inside `AutonomyKernel._audit`:
`{"id", "tick", "ts", "kind", "payload", "prev_hash"}`. -/
structure RawEntry where
  id : String
  tick : ℕ
  ts : ℚ
  kind : String
  payload : JVal
  prev_hash : String

/-- `json.dumps(raw, sort_keys=True, default=str)` for the audit raw dict.
The six keys in sorted order are `"id"`, `"kind"`, `"payload"`,
`"prev_hash"`, `"tick"`, `"ts"`. -/
def serializeRaw (raw : RawEntry) : String :=
  JVal.ser (JVal.jobj
    [("id", JVal.jstr raw.id),
     ("tick", JVal.jint raw.tick),
     ("ts", JVal.jnum raw.ts),
     ("kind", JVal.jstr raw.kind),
     ("payload", raw.payload),
     ("prev_hash", JVal.jstr raw.prev_hash)])

/-- The `sha256` helper of `app.py` applied to an audit raw dict:
SHA-256 hex digest of the canonical serialization. -/
def sha256 (raw : RawEntry) : String := sha256hex (serializeRaw raw)

/-- The genesis previous-hash sentinel `"0" * 64` from
`AutonomyKernel.__init__`. -/
def genesisHash : String := String.mk (List.replicate 64 '0')

/-- The recorded fields of an audit entry, i.e. the raw dict its hash was
computed over. -/
def auditRaw (e : AuditEntry) : RawEntry :=
  { id := e.id, tick := e.tick, ts := e.ts, kind := e.kind,
    payload := e.payload, prev_hash := e.prev_hash }

/-- The ledger-owning part of the kernel state: `self.prev_hash` and
`self.audit_chain`. -/
structure LedgerState where
  prev_hash : String
  audit_chain : List AuditEntry

/-- `AutonomyKernel.__init__`'s ledger state: empty chain, genesis sentinel. -/
def initialLedger : LedgerState where
  prev_hash := genesisHash
  audit_chain := []

/-- `AutonomyKernel._audit`: builds the raw dict from the fresh entry id and
timestamp, hashes it, appends the entry and advances `prev_hash`.  `hashFn`
abstracts the `sha256` helper so that integrity theorems can name their
collision-freedom hypotheses; the concrete kernel instantiates it with
`sha256`. -/
def auditAppend (hashFn : RawEntry → String) (tick : ℕ) (entry_id : String)
    (ts : ℚ) (kind : String) (payload : JVal) (st : LedgerState) :
    AuditEntry × LedgerState :=
  let raw : RawEntry :=
    { id := entry_id, tick := tick, ts := ts, kind := kind,
      payload := payload, prev_hash := st.prev_hash }
  let h := hashFn raw
  let entry : AuditEntry :=
    { id := entry_id, tick := tick, ts := ts, kind := kind,
      payload := payload, prev_hash := st.prev_hash, hash := h }
  (entry, { prev_hash := h, audit_chain := st.audit_chain ++ [entry] })

/-- One external input to an `_audit` call: the fresh uuid, the `time.time()`
value, the tick id, and the `(kind, payload)` arguments. -/
structure AuditInput where
  entry_id : String
  ts : ℚ
  tick : ℕ
  kind : String
  payload : JVal

/-- Folding a sequence of `_audit` calls over a ledger state. -/
def buildChain (hashFn : RawEntry → String) (st : LedgerState) :
    List AuditInput → LedgerState
  | [] => st
  | inp :: rest =>
    buildChain hashFn
      (auditAppend hashFn inp.tick inp.entry_id inp.ts inp.kind inp.payload st).2 rest

/-- The audit chain produced by a sequence of `_audit` calls from the initial
(`__init__`) ledger state. -/
def chainOf (hashFn : RawEntry → String) (inputs : List AuditInput) :
    List AuditEntry :=
  (buildChain hashFn initialLedger inputs).audit_chain

/-- The hash linking value after a list of entries: the last entry's stored
hash, or the starting value for an empty list. -/
def endHash (prev : String) (l : List AuditEntry) : String :=
  match l.getLast? with
  | none => prev
  | some e => e.hash

/-- Modelled from the spec: the ledger's `verify(entries) -> bool` operation
is described in §4.3 of the specification but absent from `app.py` (only
`_audit` exists there).  Following the spec's words, it recomputes each
entry's hash from its recorded fields and compares with the stored hash, and
compares each entry's stored previous-hash with the immediately preceding
entry's stored hash (the genesis sentinel for the first entry).  `prev` is
the expected previous-hash for the head entry. -/
def verifyFrom (hashFn : RawEntry → String) : String → List AuditEntry → Bool
  | _, [] => true
  | prev, e :: rest =>
    (hashFn (auditRaw e) == e.hash) && (e.prev_hash == prev) &&
      verifyFrom hashFn e.hash rest

/-- Modelled from the spec: `verify(entries)`, starting from the genesis
sentinel. -/
def verify (hashFn : RawEntry → String) (entries : List AuditEntry) : Bool :=
  verifyFrom hashFn genesisHash entries

theorem endHash_cons (p : String) (e : AuditEntry) (l : List AuditEntry) :
    endHash p (e :: l) = endHash e.hash l := by
  cases l with
  | nil => simp [endHash]
  | cons f rest => simp [endHash, List.getLast?]

theorem endHash_concat (p : String) (l : List AuditEntry) (e : AuditEntry) :
    endHash p (l ++ [e]) = e.hash := by
  simp [endHash, List.getLast?_concat]

theorem verifyFrom_append (hashFn : RawEntry → String) (l : List AuditEntry)
    (e : AuditEntry) (p : String) :
    verifyFrom hashFn p (l ++ [e]) = true ↔
      (verifyFrom hashFn p l = true ∧ hashFn (auditRaw e) = e.hash ∧
        e.prev_hash = endHash p l) := by
  induction l generalizing p with
  | nil => simp [verifyFrom, endHash, and_comm]
  | cons f rest ih =>
    simp only [List.cons_append, verifyFrom, Bool.and_eq_true, beq_iff_eq,
      endHash_cons, List.append_eq] at *
    rw [ih]
    tauto

theorem buildChain_invariant (hashFn : RawEntry → String) (inputs : List AuditInput)
    (st : LedgerState)
    (hv : verifyFrom hashFn genesisHash st.audit_chain = true)
    (hp : st.prev_hash = endHash genesisHash st.audit_chain) :
    verifyFrom hashFn genesisHash (buildChain hashFn st inputs).audit_chain = true ∧
      (buildChain hashFn st inputs).prev_hash =
        endHash genesisHash (buildChain hashFn st inputs).audit_chain := by
  induction inputs generalizing st with
  | nil => exact ⟨hv, hp⟩
  | cons inp rest ih =>
    simp only [buildChain]
    apply ih
    · simp only [auditAppend]
      rw [verifyFrom_append]
      exact ⟨hv, rfl, hp⟩
    · simp [auditAppend, endHash_concat]

/-- Every chain produced by `_audit` appends verifies. -/
theorem chainOf_verify (hashFn : RawEntry → String) (inputs : List AuditInput) :
    verify hashFn (chainOf hashFn inputs) = true :=
  (buildChain_invariant hashFn inputs initialLedger rfl rfl).1

/-- Soundness of `verifyFrom`: a chain that verifies satisfies the local hash
and linkage checks at every index. -/
theorem verifyFrom_extract (hashFn : RawEntry → String) (l : List AuditEntry)
    (prev : String) (hv : verifyFrom hashFn prev l = true) :
    (∀ i (hi : i < l.length), hashFn (auditRaw l[i]) = l[i].hash) ∧
    (∀ h0 : 0 < l.length, l[0].prev_hash = prev) ∧
    (∀ i (hi1 : i + 1 < l.length) (hi0 : i < l.length),
      l[i + 1].prev_hash = l[i].hash) := by
  induction l generalizing prev with
  | nil => refine ⟨by simp, by simp, by simp⟩
  | cons e rest ih =>
    simp only [verifyFrom, Bool.and_eq_true, beq_iff_eq] at hv
    obtain ⟨⟨hA, hB⟩, hC⟩ := hv
    obtain ⟨ih1, ih2, ih3⟩ := ih e.hash hC
    refine ⟨?_, ?_, ?_⟩
    · intro i hi
      cases i with
      | zero => simpa using hA
      | succ j => simpa using ih1 j (by simpa using hi)
    · intro h0
      simpa using hB
    · intro i hi1 hi0
      cases i with
      | zero =>
        have := ih2 (by simpa using hi1)
        simpa using this
      | succ j =>
        have := ih3 j (by simpa using hi1) (by simpa using hi0)
        simpa using this

/-- C2: `verify` accepts every chain produced by `_audit` appends, and
rejects the chain after any single entry's `hash`, `prev_hash` or `payload`
field is mutated — for `hash` and `prev_hash` mutation to any different
value, and for `payload` mutation whenever the recomputed hash of the
mutated entry differs from the stored hash (exactly the spec's "recomputed
hash differing from the stored hash is reported as failure"; a hash
collision on the mutated payload is the only escape). -/
theorem ledger_verify_detects_mutation (hashFn : RawEntry → String)
    (inputs : List AuditInput) (i : ℕ)
    (hi : i < (chainOf hashFn inputs).length) (h2 p2 : String) (pl2 : JVal)
    (hh : h2 ≠ (chainOf hashFn inputs)[i].hash)
    (hp : p2 ≠ (chainOf hashFn inputs)[i].prev_hash)
    (hpl : hashFn (auditRaw { (chainOf hashFn inputs)[i] with payload := pl2 }) ≠
      (chainOf hashFn inputs)[i].hash) :
    verify hashFn (chainOf hashFn inputs) = true ∧
    verify hashFn ((chainOf hashFn inputs).set i
      { (chainOf hashFn inputs)[i] with hash := h2 }) = false ∧
    verify hashFn ((chainOf hashFn inputs).set i
      { (chainOf hashFn inputs)[i] with prev_hash := p2 }) = false ∧
    verify hashFn ((chainOf hashFn inputs).set i
      { (chainOf hashFn inputs)[i] with payload := pl2 }) = false := by
  have hv : verify hashFn (chainOf hashFn inputs) = true := chainOf_verify hashFn inputs
  obtain ⟨hH, hF, hL⟩ :=
    verifyFrom_extract hashFn (chainOf hashFn inputs) genesisHash hv
  refine ⟨hv, ?_, ?_, ?_⟩
  · rw [Bool.eq_false_iff]
    intro hmv
    obtain ⟨mH, _, _⟩ := verifyFrom_extract hashFn _ genesisHash hmv
    have hlen : i < ((chainOf hashFn inputs).set i
        { (chainOf hashFn inputs)[i] with hash := h2 }).length := by
      simpa using hi
    have hmi := mH i hlen
    rw [List.getElem_set_self hlen] at hmi
    have hmi2 : hashFn (auditRaw (chainOf hashFn inputs)[i]) = h2 := hmi
    exact hh ((hmi2.symm.trans (hH i hi)))
  · rw [Bool.eq_false_iff]
    intro hmv
    obtain ⟨_, mF, mL⟩ := verifyFrom_extract hashFn _ genesisHash hmv
    have hlen : i < ((chainOf hashFn inputs).set i
        { (chainOf hashFn inputs)[i] with prev_hash := p2 }).length := by
      simpa using hi
    cases i with
    | zero =>
      have hm0 := mF (by omega)
      rw [List.getElem_set_self hlen] at hm0
      have hm0' : p2 = genesisHash := hm0
      have ho0 : (chainOf hashFn inputs)[0].prev_hash = genesisHash := hF (by omega)
      exact hp (hm0'.trans ho0.symm)
    | succ j =>
      have hj1 : j + 1 < ((chainOf hashFn inputs).set (j + 1)
          { (chainOf hashFn inputs)[j + 1] with prev_hash := p2 }).length := hlen
      have hj0 : j < ((chainOf hashFn inputs).set (j + 1)
          { (chainOf hashFn inputs)[j + 1] with prev_hash := p2 }).length := by
        simp only [List.length_set] at *
        omega
      have hml := mL j hj1 hj0
      rw [List.getElem_set_self hj1] at hml
      rw [List.getElem_set_ne (by omega : j + 1 ≠ j) hj0] at hml
      have hml' : p2 = (chainOf hashFn inputs)[j].hash := hml
      have hol : (chainOf hashFn inputs)[j + 1].prev_hash =
          (chainOf hashFn inputs)[j].hash := hL j hi (by omega)
      exact hp (hml'.trans hol.symm)
  · rw [Bool.eq_false_iff]
    intro hmv
    obtain ⟨mH, _, _⟩ := verifyFrom_extract hashFn _ genesisHash hmv
    have hlen : i < ((chainOf hashFn inputs).set i
        { (chainOf hashFn inputs)[i] with payload := pl2 }).length := by
      simpa using hi
    have hmi := mH i hlen
    rw [List.getElem_set_self hlen] at hmi
    have hmi2 : hashFn (auditRaw { (chainOf hashFn inputs)[i] with payload := pl2 }) =
        (chainOf hashFn inputs)[i].hash := hmi
    exact hpl hmi2

/-- A first sample `_audit` input (a frame summary). -/
def wInputA : AuditInput where
  entry_id := "e0"
  ts := 0
  tick := 1
  kind := "frame"
  payload := JVal.jobj [("streams", JVal.jobj [])]

/-- A second sample `_audit` input (a risk summary). -/
def wInputB : AuditInput where
  entry_id := "e1"
  ts := 1
  tick := 1
  kind := "risk"
  payload := JVal.jobj [("score", JVal.jnum 30), ("level", JVal.jstr "ELEVATED")]

/-- A small payload-sensitive hash function used only to evaluate the
parametric ledger theorems on concrete inputs (it is collision-free on the
inputs of the witness below, and kernel-computable, unlike the well-founded
`serializeRaw`). -/
def toyHash (raw : RawEntry) : String :=
  raw.id ++ "|" ++ raw.kind ++ "|" ++ raw.prev_hash ++ "|" ++
    (match raw.payload with
     | .jnull => "null"
     | .jbool _ => "bool"
     | .jint _ => "int"
     | .jnum _ => "num"
     | .jstr s => s
     | .jarr _ => "arr"
     | .jobj _ => "obj")

/-- Concrete check of C2 on a two-entry chain, mutating the second entry. -/
theorem ledger_verify_detects_mutation_witness :
    ∃ hi : 1 < (chainOf toyHash [wInputA, wInputB]).length,
      verify toyHash (chainOf toyHash [wInputA, wInputB]) = true ∧
      verify toyHash ((chainOf toyHash [wInputA, wInputB]).set 1
        { (chainOf toyHash [wInputA, wInputB])[1] with hash := "beef" }) = false ∧
      verify toyHash ((chainOf toyHash [wInputA, wInputB]).set 1
        { (chainOf toyHash [wInputA, wInputB])[1] with prev_hash := "beef" }) = false ∧
      verify toyHash ((chainOf toyHash [wInputA, wInputB]).set 1
        { (chainOf toyHash [wInputA, wInputB])[1] with payload := JVal.jnull }) = false :=
  ⟨by decide, ledger_verify_detects_mutation toyHash [wInputA, wInputB] 1 (by decide)
    "beef" "beef" JVal.jnull (by decide) (by decide) (by decide)⟩

theorem char_toNat_inj (a b : Char) (h : a.toNat = b.toNat) : a = b := by
  have hc := congrArg Char.ofNat h
  rwa [Char.ofNat_toNat, Char.ofNat_toNat] at hc

/-- `charListLe` unfolded on two non-empty lists. -/
theorem charListLe_cons (a b : Char) (as bs : List Char) :
    charListLe (a :: as) (b :: bs) = true ↔
      a.toNat < b.toNat ∨ (a.toNat = b.toNat ∧ charListLe as bs = true) := by
  simp only [charListLe]
  split
  · simp only [true_iff]
    left
    assumption
  · split
    · constructor
      · intro habs
        exact absurd habs (by simp)
      · intro hd
        rcases hd with hlt | ⟨heq, _⟩ <;> omega
    · constructor
      · intro hr
        exact Or.inr ⟨by omega, hr⟩
      · intro hd
        rcases hd with hlt | ⟨_, hr⟩
        · omega
        · exact hr

theorem charListLe_total (as bs : List Char) :
    charListLe as bs = true ∨ charListLe bs as = true := by
  induction as generalizing bs with
  | nil => exact Or.inl rfl
  | cons a as ih =>
    cases bs with
    | nil => exact Or.inr rfl
    | cons b bs =>
      rcases Nat.lt_trichotomy a.toNat b.toNat with h | h | h
      · exact Or.inl ((charListLe_cons a b as bs).mpr (Or.inl h))
      · rcases ih bs with hr | hr
        · exact Or.inl ((charListLe_cons a b as bs).mpr (Or.inr ⟨h, hr⟩))
        · exact Or.inr ((charListLe_cons b a bs as).mpr (Or.inr ⟨h.symm, hr⟩))
      · exact Or.inr ((charListLe_cons b a bs as).mpr (Or.inl h))

theorem charListLe_trans (as bs cs : List Char)
    (h1 : charListLe as bs = true) (h2 : charListLe bs cs = true) :
    charListLe as cs = true := by
  induction as generalizing bs cs with
  | nil => rfl
  | cons a as ih =>
    cases bs with
    | nil => simp [charListLe] at h1
    | cons b bs =>
      cases cs with
      | nil => simp [charListLe] at h2
      | cons c cs =>
        rw [charListLe_cons] at h1 h2 ⊢
        rcases h1 with hlt1 | ⟨heq1, hr1⟩
        · rcases h2 with hlt2 | ⟨heq2, _⟩
          · exact Or.inl (by omega)
          · exact Or.inl (by omega)
        · rcases h2 with hlt2 | ⟨heq2, hr2⟩
          · exact Or.inl (by omega)
          · exact Or.inr ⟨by omega, ih bs cs hr1 hr2⟩

theorem charListLe_antisymm (as bs : List Char)
    (h1 : charListLe as bs = true) (h2 : charListLe bs as = true) : as = bs := by
  induction as generalizing bs with
  | nil =>
    cases bs with
    | nil => rfl
    | cons b bs => simp [charListLe] at h2
  | cons a as ih =>
    cases bs with
    | nil => simp [charListLe] at h1
    | cons b bs =>
      rw [charListLe_cons] at h1 h2
      rcases h1 with hlt1 | ⟨heq1, hr1⟩
      · rcases h2 with hlt2 | ⟨heq2, _⟩ <;> omega
      · rcases h2 with hlt2 | ⟨heq2, hr2⟩
        · omega
        · rw [char_toNat_inj a b heq1, ih bs hr1 hr2]

theorem strLe_antisymm (a b : String) (h1 : strLe a b = true)
    (h2 : strLe b a = true) : a = b := by
  cases a with
  | mk da =>
    cases b with
    | mk db =>
      have := charListLe_antisymm da db h1 h2
      rw [this]

/-- Key-sorting is insertion-order independent: two object pair lists that
are permutations of one another with no duplicate keys sort identically.
This is exactly what `sort_keys=True` buys: a canonical, deterministic
serialization for identical logical content. -/
theorem sortKvs_eq_of_perm (kvs₁ kvs₂ : List (String × JVal))
    (hperm : List.Perm kvs₁ kvs₂) (hnd : (kvs₁.map Prod.fst).Nodup) :
    sortKvs kvs₁ = sortKvs kvs₂ := by
  haveI : IsTotal (String × JVal) (fun a b : String × JVal => strLe a.1 b.1 = true) :=
    ⟨fun a b => charListLe_total a.1.data b.1.data⟩
  haveI : IsTrans (String × JVal) (fun a b : String × JVal => strLe a.1 b.1 = true) :=
    ⟨fun a b c hab hbc => charListLe_trans a.1.data b.1.data c.1.data hab hbc⟩
  haveI : IsAntisymm (String × JVal)
      (fun a b : String × JVal => strLe a.1 b.1 = true ∧ a.1 ≠ b.1) :=
    ⟨fun a b hab hba => absurd (strLe_antisymm a.1 b.1 hab.1 hba.1) hab.2⟩
  have hp₁ : List.Perm (sortKvs kvs₁) kvs₁ := List.perm_insertionSort _ _
  have hp₂ : List.Perm (sortKvs kvs₂) kvs₂ := List.perm_insertionSort _ _
  have hpp : List.Perm (sortKvs kvs₁) (sortKvs kvs₂) :=
    hp₁.trans (hperm.trans hp₂.symm)
  have hnd₁ : ((sortKvs kvs₁).map Prod.fst).Nodup :=
    ((hp₁.map Prod.fst).nodup_iff).mpr hnd
  have hnd₂ : ((sortKvs kvs₂).map Prod.fst).Nodup :=
    ((hpp.map Prod.fst).nodup_iff).mp hnd₁
  have hstrict : ∀ l : List (String × JVal),
      List.Sorted (fun a b : String × JVal => strLe a.1 b.1 = true) l →
      (l.map Prod.fst).Nodup →
      List.Sorted (fun a b : String × JVal => strLe a.1 b.1 = true ∧ a.1 ≠ b.1) l := by
    intro l hs hn
    have hne : List.Pairwise (fun a b : String × JVal => a.1 ≠ b.1) l :=
      List.pairwise_map.mp hn
    exact hs.and hne
  exact List.eq_of_perm_of_sorted hpp
    (hstrict _ (List.sorted_insertionSort _ _) hnd₁)
    (hstrict _ (List.sorted_insertionSort _ _) hnd₂)

/-- Serializing an object is insertion-order independent on duplicate-free
keys. -/
theorem ser_jobj_eq_of_perm (kvs₁ kvs₂ : List (String × JVal))
    (hperm : List.Perm kvs₁ kvs₂) (hnd : (kvs₁.map Prod.fst).Nodup) :
    JVal.ser (JVal.jobj kvs₁) = JVal.ser (JVal.jobj kvs₂) := by
  simp only [JVal.ser]
  rw [sortKvs_eq_of_perm kvs₁ kvs₂ hperm hnd]

/-- The audit raw dict sorted by key: `id`, `kind`, `payload`, `prev_hash`,
`tick`, `ts`. -/
theorem sortKvs_rawFields (a c d : String) (t : ℕ) (q : ℚ) (v : JVal) :
    sortKvs [("id", JVal.jstr a), ("tick", JVal.jint t), ("ts", JVal.jnum q),
             ("kind", JVal.jstr c), ("payload", v), ("prev_hash", JVal.jstr d)] =
      [("id", JVal.jstr a), ("kind", JVal.jstr c), ("payload", v),
       ("prev_hash", JVal.jstr d), ("tick", JVal.jint t), ("ts", JVal.jnum q)] := rfl

/-- `serializeRaw` depends on the payload only through its serialization. -/
theorem serializeRaw_congr_payload (raw₁ raw₂ : RawEntry)
    (hid : raw₁.id = raw₂.id) (htick : raw₁.tick = raw₂.tick)
    (hts : raw₁.ts = raw₂.ts) (hkind : raw₁.kind = raw₂.kind)
    (hprev : raw₁.prev_hash = raw₂.prev_hash)
    (hv : JVal.ser raw₁.payload = JVal.ser raw₂.payload) :
    serializeRaw raw₁ = serializeRaw raw₂ := by
  unfold serializeRaw
  simp only [JVal.ser, sortKvs_rawFields]
  rw [hid, htick, hts, hkind, hprev]
  simp only [serKvs]
  rw [hv]

/-- C3: every `_audit`-built chain starts from the 64-zero genesis sentinel,
links each later entry's `prev_hash` to the preceding entry's `hash`, and
stores as `hash` the SHA-256 hex digest of the sorted-key JSON serialization
of `{id, tick, ts, kind, payload, prev_hash}`; the serialization is
deterministic, so raw dicts with identical logical content (same fields,
payload keys in any insertion order) hash identically. -/
theorem audit_chain_hash_invariants (inputs : List AuditInput) :
    (∀ h0 : 0 < (chainOf sha256 inputs).length,
      (chainOf sha256 inputs)[0].prev_hash = genesisHash) ∧
    (∀ i (hi1 : i + 1 < (chainOf sha256 inputs).length)
      (hi0 : i < (chainOf sha256 inputs).length),
      (chainOf sha256 inputs)[i + 1].prev_hash = (chainOf sha256 inputs)[i].hash) ∧
    (∀ i (hi : i < (chainOf sha256 inputs).length),
      (chainOf sha256 inputs)[i].hash =
        sha256hex (serializeRaw (auditRaw (chainOf sha256 inputs)[i]))) ∧
    (∀ raw₁ raw₂ : RawEntry, ∀ kvs₁ kvs₂ : List (String × JVal),
      raw₁.payload = JVal.jobj kvs₁ → raw₂.payload = JVal.jobj kvs₂ →
      List.Perm kvs₁ kvs₂ → (kvs₁.map Prod.fst).Nodup →
      raw₁.id = raw₂.id → raw₁.tick = raw₂.tick → raw₁.ts = raw₂.ts →
      raw₁.kind = raw₂.kind → raw₁.prev_hash = raw₂.prev_hash →
      sha256 raw₁ = sha256 raw₂) ∧
    genesisHash.length = 64 ∧ (∀ ch ∈ genesisHash.data, ch = '0') := by
  obtain ⟨hH, hF, hL⟩ :=
    verifyFrom_extract sha256 (chainOf sha256 inputs) genesisHash
      (chainOf_verify sha256 inputs)
  refine ⟨hF, hL, ?_, ?_, by decide, ?_⟩
  · intro i hi
    exact (hH i hi).symm
  · intro raw₁ raw₂ kvs₁ kvs₂ h₁ h₂ hperm hnd hid htick hts hkind hprev
    exact congrArg sha256hex (serializeRaw_congr_payload raw₁ raw₂ hid htick hts
      hkind hprev (by rw [h₁, h₂]; exact ser_jobj_eq_of_perm kvs₁ kvs₂ hperm hnd))
  · intro ch hch
    exact List.eq_of_mem_replicate hch

/-- A raw dict with a two-key payload. -/
def wRawP1 : RawEntry where
  id := "x"
  tick := 1
  ts := 0
  kind := "k"
  payload := JVal.jobj [("a", JVal.jint 1), ("b", JVal.jint 2)]
  prev_hash := genesisHash

/-- The same raw dict with the payload keys in the other insertion order. -/
def wRawP2 : RawEntry where
  id := "x"
  tick := 1
  ts := 0
  kind := "k"
  payload := JVal.jobj [("b", JVal.jint 2), ("a", JVal.jint 1)]
  prev_hash := genesisHash

/-- Concrete check of C3 on a two-entry chain and a permuted-payload pair. -/
theorem audit_chain_hash_invariants_witness :
    (∃ h0 : 0 < (chainOf sha256 [wInputA, wInputB]).length,
      (chainOf sha256 [wInputA, wInputB])[0].prev_hash = genesisHash) ∧
    (∃ h1 : 0 + 1 < (chainOf sha256 [wInputA, wInputB]).length,
     ∃ h0 : 0 < (chainOf sha256 [wInputA, wInputB]).length,
      (chainOf sha256 [wInputA, wInputB])[0 + 1].prev_hash =
        (chainOf sha256 [wInputA, wInputB])[0].hash) ∧
    (∃ h0 : 0 < (chainOf sha256 [wInputA, wInputB]).length,
      (chainOf sha256 [wInputA, wInputB])[0].hash =
        sha256hex (serializeRaw (auditRaw (chainOf sha256 [wInputA, wInputB])[0]))) ∧
    sha256 wRawP1 = sha256 wRawP2 := by
  obtain ⟨hF, hL, hH, hdet, _, _⟩ := audit_chain_hash_invariants [wInputA, wInputB]
  refine ⟨⟨by decide, hF (by decide)⟩, ⟨by decide, by decide, hL 0 (by decide) (by decide)⟩,
    ⟨by decide, hH 0 (by decide)⟩, ?_⟩
  exact hdet wRawP1 wRawP2 [("a", JVal.jint 1), ("b", JVal.jint 2)]
    [("b", JVal.jint 2), ("a", JVal.jint 1)] rfl rfl
    (List.Perm.swap ("b", JVal.jint 2) ("a", JVal.jint 1) []) (by decide)
    rfl rfl rfl rfl rfl

/-!
## The tick orchestrator (`AutonomyKernel`)
-/

/-- The cross-tick state owned by an `AutonomyKernel` instance: the
governance config and the mutable fields set in `__init__`. -/
structure KernelState where
  gov_cfg : GovernanceConfig
  tick_id : ℕ
  prev_world : Option WorldState
  audit_chain : List AuditEntry
  prev_hash : String

/-- `AutonomyKernel.__init__`: tick counter 0, no previous world, empty
chain, genesis sentinel. -/
def AutonomyKernel.init (cfg : GovernanceConfig) : KernelState where
  gov_cfg := cfg
  tick_id := 0
  prev_world := none
  audit_chain := []
  prev_hash := genesisHash

/-- The seven pluggable stage modules held by the kernel.  Each one may
signal failure (raise, in Python), modelled with `Except`.  The governance
module returns the updated proposals (its in-place mutation of proposal
status/notes) together with the decisions. -/
structure KernelModules (E : Type) where
  sensor : ℕ → Option WorldState → Except E SensorFrame
  perception : SensorFrame → Option WorldState → Except E WorldState
  risk_module : WorldState → Except E RiskReport
  policy_module : WorldState → RiskReport → Except E (List Intent)
  proposal_module : List Intent → WorldState → RiskReport → Except E (List Proposal)
  governance_module : List Proposal → WorldState → RiskReport → GovernanceConfig →
    Except E (List Proposal × List Decision)
  actuation_module : List Decision → WorldState → Except E (List ActuationCommand)

/-- The outputs of the seven stages for one tick. -/
structure StageOutputs where
  frame : SensorFrame
  world : WorldState
  risk : RiskReport
  intents : List Intent
  proposals : List Proposal
  decisions : List Decision
  actuation : List ActuationCommand

/-- The stage-invocation half of `step()`: sensor → perception → risk →
policy → proposals → governance → actuation, each receiving exactly the
prior outputs; the first failure aborts the rest. -/
def runStages {E : Type} (m : KernelModules E) (tick : ℕ)
    (prev_world : Option WorldState) (cfg : GovernanceConfig) :
    Except E StageOutputs := do
  let frame ← m.sensor tick prev_world
  let world ← m.perception frame prev_world
  let risk ← m.risk_module world
  let intents ← m.policy_module world risk
  let proposals ← m.proposal_module intents world risk
  let govOut ← m.governance_module proposals world risk cfg
  let actuation ← m.actuation_module govOut.2 world
  pure { frame := frame, world := world, risk := risk, intents := intents,
         proposals := govOut.1, decisions := govOut.2, actuation := actuation }

/-- The audit-commit half of `step()`: the six `_audit` calls in their fixed
order with their coarse payloads.  `ids n` / `tss n` are the `n`-th
`uuid.uuid4()` / `time.time()` values drawn during the commit. -/
def commitAudits (hashFn : RawEntry → String) (tick : ℕ) (ids : ℕ → String)
    (tss : ℕ → ℚ) (o : StageOutputs) (st : LedgerState) :
    List AuditEntry × LedgerState :=
  let r0 := auditAppend hashFn tick (ids 0) (tss 0) "frame"
    (JVal.jobj [("streams", JVal.jobj o.frame.streams)]) st
  let r1 := auditAppend hashFn tick (ids 1) (tss 1) "risk"
    (JVal.jobj [("score", JVal.jnum o.risk.score),
                ("level", JVal.jstr o.risk.level.name)]) r0.2
  let r2 := auditAppend hashFn tick (ids 2) (tss 2) "intents"
    (JVal.jobj [("count", JVal.jint o.intents.length)]) r1.2
  let r3 := auditAppend hashFn tick (ids 3) (tss 3) "proposals"
    (JVal.jobj [("count", JVal.jint o.proposals.length)]) r2.2
  let r4 := auditAppend hashFn tick (ids 4) (tss 4) "decisions"
    (JVal.jobj [("count", JVal.jint o.decisions.length)]) r3.2
  let r5 := auditAppend hashFn tick (ids 5) (tss 5) "actuation"
    (JVal.jobj [("count", JVal.jint o.actuation.length)]) r4.2
  ([r0.1, r1.1, r2.1, r3.1, r4.1, r5.1], r5.2)

/-- `AutonomyKernel.step`: increments the tick counter, runs the stages,
and on success commits the six audit entries, advances `prev_world` and
returns the snapshot.  A stage failure propagates as the error, leaving
every state component except the already-incremented tick counter
untouched (in Python the exception escapes before the audit block).
Returns the post-call kernel state together with the call's outcome. -/
def AutonomyKernel.step {E : Type} (hashFn : RawEntry → String)
    (m : KernelModules E) (audit_ids : ℕ → String) (audit_ts : ℕ → ℚ)
    (s : KernelState) : KernelState × Except E TickResult :=
  let tick := s.tick_id + 1
  match runStages m tick s.prev_world s.gov_cfg with
  | .error e => ({ s with tick_id := tick }, .error e)
  | .ok o =>
    let committed := commitAudits hashFn tick audit_ids audit_ts o
      { prev_hash := s.prev_hash, audit_chain := s.audit_chain }
    ({ s with
        tick_id := tick
        prev_world := some o.world
        audit_chain := committed.2.audit_chain
        prev_hash := committed.2.prev_hash },
     .ok { tick := tick
           sensor_frame := o.frame
           world := o.world
           risk := o.risk
           intents := o.intents
           proposals := o.proposals
           decisions := o.decisions
           actuation := o.actuation
           audit_entries := committed.1 })

/-- C4: if any stage invoked by `step()` fails, no audit entry is appended,
the previous world state and previous hash are unchanged, the tick counter
has already been incremented (the one pre-committed side effect), and the
failure is surfaced to the caller. -/
theorem step_failure_semantics {E : Type} (hashFn : RawEntry → String)
    (m : KernelModules E) (ids : ℕ → String) (tss : ℕ → ℚ) (s : KernelState) (e : E)
    (hfail : runStages m (s.tick_id + 1) s.prev_world s.gov_cfg = .error e) :
    (AutonomyKernel.step hashFn m ids tss s).1.audit_chain = s.audit_chain ∧
    (AutonomyKernel.step hashFn m ids tss s).1.prev_world = s.prev_world ∧
    (AutonomyKernel.step hashFn m ids tss s).1.prev_hash = s.prev_hash ∧
    (AutonomyKernel.step hashFn m ids tss s).1.tick_id = s.tick_id + 1 ∧
    (AutonomyKernel.step hashFn m ids tss s).2 = Except.error e := by
  simp [AutonomyKernel.step, hfail]

/-- Stage modules that always succeed with empty outputs, except that the
sensor refuses tick 2 — enough to exercise both step outcomes concretely. -/
def flakyModules : KernelModules String where
  sensor := fun tick _ =>
    if tick = 2 then .error "sensor outage"
    else .ok { tick := tick, ts := 0, streams := [] }
  perception := fun frame _ =>
    .ok { tick := frame.tick, ts := frame.ts, facts := [], health := [] }
  risk_module := fun world =>
    .ok { tick := world.tick, ts := world.ts, score := 0, level := .STABLE,
          clarity := 100, drivers := [] }
  policy_module := fun _ _ => .ok []
  proposal_module := fun _ _ _ => .ok []
  governance_module := fun ps _ _ _ => .ok (ps, [])
  actuation_module := fun _ _ => .ok []

/-- Concrete check of C4: at the state with tick counter 1 the sensor fails
(tick 2), and the failed call leaves everything but the counter unchanged. -/
theorem step_failure_semantics_witness :
    runStages flakyModules ((AutonomyKernel.init {}).tick_id + 1 + 1)
        (AutonomyKernel.init {}).prev_world (AutonomyKernel.init {}).gov_cfg =
      Except.error "sensor outage" ∧
    (AutonomyKernel.step toyHash flakyModules (fun _ => "u") (fun _ => 0)
        { AutonomyKernel.init {} with tick_id := 1 }).1.audit_chain =
      ({ AutonomyKernel.init {} with tick_id := 1 } : KernelState).audit_chain ∧
    (AutonomyKernel.step toyHash flakyModules (fun _ => "u") (fun _ => 0)
        { AutonomyKernel.init {} with tick_id := 1 }).2 =
      Except.error "sensor outage" := by
  have h := step_failure_semantics toyHash flakyModules (fun _ => "u") (fun _ => 0)
    { AutonomyKernel.init {} with tick_id := 1 } "sensor outage" (by rfl)
  exact ⟨by rfl, h.1, h.2.2.2.2⟩

/-- C5: every successful `step()` appends exactly six audit entries to the
chain, in the fixed order frame, risk, intents, proposals, decisions,
actuation; all six carry the new tick id, the old chain is preserved as a
prefix (entries are only ever appended, never removed or reordered), and the
snapshot returns exactly these six entries. -/
theorem step_commits_six_audits {E : Type} (hashFn : RawEntry → String)
    (m : KernelModules E) (ids : ℕ → String) (tss : ℕ → ℚ) (s : KernelState)
    (o : StageOutputs)
    (hok : runStages m (s.tick_id + 1) s.prev_world s.gov_cfg = .ok o) :
    ∃ es : List AuditEntry,
      (AutonomyKernel.step hashFn m ids tss s).1.audit_chain = s.audit_chain ++ es ∧
      es.map AuditEntry.kind =
        ["frame", "risk", "intents", "proposals", "decisions", "actuation"] ∧
      (∀ a ∈ es, a.tick = s.tick_id + 1) ∧
      (∀ r, (AutonomyKernel.step hashFn m ids tss s).2 = Except.ok r →
        r.audit_entries = es ∧ r.tick = s.tick_id + 1) := by
  refine ⟨(commitAudits hashFn (s.tick_id + 1) ids tss o
    { prev_hash := s.prev_hash, audit_chain := s.audit_chain }).1, ?_, ?_, ?_, ?_⟩
  · simp [AutonomyKernel.step, hok, commitAudits, auditAppend]
  · simp [commitAudits, auditAppend]
  · intro a ha
    simp only [commitAudits, auditAppend, List.mem_cons, List.not_mem_nil,
      or_false] at ha
    rcases ha with h | h | h | h | h | h <;> rw [h]
  · intro r hr
    simp only [AutonomyKernel.step, hok] at hr
    rw [Except.ok.injEq] at hr
    rw [← hr]
    exact ⟨rfl, rfl⟩

/-- Concrete check of C5 at the initial state with the always-succeeding
path of `flakyModules` (tick 1). -/
theorem step_commits_six_audits_witness :
    ∃ es : List AuditEntry,
      (AutonomyKernel.step toyHash flakyModules (fun _ => "u") (fun _ => 0)
          (AutonomyKernel.init {})).1.audit_chain =
        (AutonomyKernel.init {}).audit_chain ++ es ∧
      es.map AuditEntry.kind =
        ["frame", "risk", "intents", "proposals", "decisions", "actuation"] ∧
      (∀ a ∈ es, a.tick = (AutonomyKernel.init {}).tick_id + 1) ∧
      (∀ r, (AutonomyKernel.step toyHash flakyModules (fun _ => "u") (fun _ => 0)
          (AutonomyKernel.init {})).2 = Except.ok r →
        r.audit_entries = es ∧ r.tick = (AutonomyKernel.init {}).tick_id + 1) :=
  step_commits_six_audits toyHash flakyModules (fun _ => "u") (fun _ => 0)
    (AutonomyKernel.init {})
    { frame := { tick := 1, ts := 0, streams := [] }
      world := { tick := 1, ts := 0, facts := [], health := [] }
      risk := { tick := 1, ts := 0, score := 0, level := .STABLE, clarity := 100,
                drivers := [] }
      intents := []
      proposals := []
      decisions := []
      actuation := [] }
    (by rfl)

/-- C7 (amended): the tick counter starts at 0 in `__init__` and every
`step()` call — successful or failed — increments it by exactly one, so tick
ids are never reused or decremented and a successful call returns a tick id
exactly one greater than the previous *call*'s; it exceeds the previous
*successful* tick by one only when no failed call intervened, since a failed
call also consumes a tick id. -/
theorem step_tick_increment {E : Type} (hashFn : RawEntry → String)
    (m : KernelModules E) (ids : ℕ → String) (tss : ℕ → ℚ) (s : KernelState) :
    (AutonomyKernel.step hashFn m ids tss s).1.tick_id = s.tick_id + 1 ∧
    (∀ r, (AutonomyKernel.step hashFn m ids tss s).2 = Except.ok r →
      r.tick = s.tick_id + 1) ∧
    (∀ cfg, (AutonomyKernel.init cfg).tick_id = 0) := by
  cases h : runStages m (s.tick_id + 1) s.prev_world s.gov_cfg with
  | error e =>
    refine ⟨by simp [AutonomyKernel.step, h], ?_, fun _ => rfl⟩
    intro r hr
    simp [AutonomyKernel.step, h] at hr
  | ok o =>
    refine ⟨by simp [AutonomyKernel.step, h], ?_, fun _ => rfl⟩
    intro r hr
    simp only [AutonomyKernel.step, h, Except.ok.injEq] at hr
    rw [← hr]

theorem except_tick_of_forall {E : Type} (x : Except E TickResult) (n : ℕ)
    (h : ∀ r, x = Except.ok r → r.tick = n) (hne : x.isOk = true) :
    x.toOption.map TickResult.tick = some n := by
  cases x with
  | error e => simp [Except.isOk, Except.toBool] at hne
  | ok r => simp [Except.toOption, h r rfl]

/-- The first call on the default-configured kernel with `flakyModules`. -/
def wRun1 : KernelState × Except String TickResult :=
  AutonomyKernel.step toyHash flakyModules (fun _ => "u") (fun _ => 0)
    (AutonomyKernel.init {})

/-- The second call (the sensor fails at tick 2). -/
def wRun2 : KernelState × Except String TickResult :=
  AutonomyKernel.step toyHash flakyModules (fun _ => "u") (fun _ => 0) wRun1.1

/-- The third call (succeeds again, at tick 3). -/
def wRun3 : KernelState × Except String TickResult :=
  AutonomyKernel.step toyHash flakyModules (fun _ => "u") (fun _ => 0) wRun2.1

/-- Concrete check of C7 (amended) on the first call. -/
theorem step_tick_increment_witness :
    wRun1.1.tick_id = (AutonomyKernel.init {}).tick_id + 1 ∧
    wRun1.2.toOption.map TickResult.tick =
      some ((AutonomyKernel.init {}).tick_id + 1) := by
  have h := step_tick_increment toyHash flakyModules (fun _ => "u") (fun _ => 0)
    (AutonomyKernel.init {})
  exact ⟨h.1, except_tick_of_forall _ _ h.2.1 (by decide)⟩

/-- C7 counterexample: calls one and three succeed with tick ids 1 and 3,
the second call fails (consuming tick id 2), so the tick id returned by the
third call is *not* one greater than the previous successful tick id 1 —
refuting the claim's final clause for failed-call gaps. -/
theorem tick_succession_counterexample :
    wRun1.2.toOption.map TickResult.tick = some 1 ∧
    wRun2.2 = Except.error "sensor outage" ∧
    wRun3.2.toOption.map TickResult.tick = some 3 ∧
    wRun3.2.toOption.map TickResult.tick ≠ some (1 + 1) := by
  refine ⟨by decide, by rfl, by decide, by decide⟩

/-!
## The default stage modules and the `__main__` wiring
-/

/-- Python's `dict.get(key, default)` over a `JDict`. -/
def jgetD (kvs : JDict) (k : String) (dflt : JVal) : JVal :=
  match kvs.find? (fun p => p.1 == k) with
  | some p => p.2
  | none => dflt

/-- `ops.get(key, default)` for the numeric slots of the default modules
(the default adapter only ever stores numbers there). -/
def jgetNum (v : JVal) (k : String) (dflt : ℚ) : ℚ :=
  match v with
  | .jobj kvs =>
    match jgetD kvs k (JVal.jnum dflt) with
    | .jnum q => q
    | _ => dflt
  | _ => dflt

/-- `h.get(key, default)` over the health mapping. -/
def healthGet (h : List (String × ℚ)) (k : String) (dflt : ℚ) : ℚ :=
  match h.find? (fun p => p.1 == k) with
  | some p => p.2
  | none => dflt

/-- `round(x, 1)`.  Python's float round is round-half-to-even; modelled as
round-half-up on ℚ — no claim depends on tie behaviour. -/
def pyRound1 (q : ℚ) : ℚ := (round (q * 10) : ℤ) / 10

/-- `SyntheticSensorAdapter.read`: `rng n` is the `n`-th `self.rng.random()`
draw of this call, `ts` its `time.time()` value. -/
def SyntheticSensorAdapter.read (rng : ℕ → ℚ) (ts : ℚ) (tick : ℕ)
    (prev_world : Option WorldState) : SensorFrame :=
  let base_load := 0.4 + 0.2 * rng 0
  let env_stress := 0.3 + 0.3 * rng 1
  let comms_ok := 0.7 + 0.3 * rng 2
  { tick := tick
    ts := ts
    streams := [("ops", JVal.jobj
      [("system_load", JVal.jnum base_load),
       ("env_stress", JVal.jnum env_stress),
       ("comms_quality", JVal.jnum comms_ok)])] }

/-- `DefaultPerceptionModule.run`. -/
def DefaultPerceptionModule.run (frame : SensorFrame)
    (prev_world : Option WorldState) : WorldState :=
  let ops := jgetD frame.streams "ops" (JVal.jobj [])
  { tick := frame.tick
    ts := frame.ts
    facts := [("raw_ops", ops), ("alerts", JVal.jarr [])]
    health := [("compute", max 0 (1 - jgetNum ops "system_load" 0.5)),
               ("environment", max 0 (1 - jgetNum ops "env_stress" 0.5)),
               ("comms", jgetNum ops "comms_quality" 0.8)] }

/-- `DefaultRiskModule.run`. -/
def DefaultRiskModule.run (world : WorldState) : RiskReport :=
  let compute_r := 1 - healthGet world.health "compute" 0.8
  let env_r := 1 - healthGet world.health "environment" 0.8
  let comms_r := 1 - healthGet world.health "comms" 0.8
  let score0 := 100 * (0.35 * compute_r + 0.40 * env_r + 0.25 * comms_r)
  let score := max 0 (min 100 score0)
  let level :=
    if score < 25 then RiskLevel.STABLE
    else if score < 50 then RiskLevel.ELEVATED
    else if score < 75 then RiskLevel.HIGH
    else RiskLevel.CRITICAL
  let clarity := max 30 (100 - score * 0.6)
  { tick := world.tick
    ts := world.ts
    score := pyRound1 score
    level := level
    clarity := pyRound1 clarity
    drivers := [("compute", pyRound1 (compute_r * 100)),
                ("environment", pyRound1 (env_r * 100)),
                ("comms", pyRound1 (comms_r * 100))]
    notes := "synthetic risk blend" }

/-- `DefaultPolicyModule.run`: the baseline `CONTINUE` intent, escalations
by risk level, then the stable sort by descending priority.  `ids n` is the
`n`-th `uuid.uuid4()` of this call. -/
def DefaultPolicyModule.run (ids : ℕ → String) (world : WorldState)
    (risk : RiskReport) : List Intent :=
  let base : List Intent :=
    [{ id := ids 0, kind := "CONTINUE", priority := 10,
       rationale := "Baseline keep-going behavior" }]
  let withSlow :=
    if risk.level = RiskLevel.HIGH ∨ risk.level = RiskLevel.CRITICAL then
      base ++ [{ id := ids 1, kind := "SLOW_ROLL", priority := 50,
                 params := [("rate_multiplier", JVal.jnum 0.5)],
                 rationale := "Risk " ++ ratStr risk.score ++ " ≥ HIGH; slow systems" }]
    else base
  let withEmergency :=
    if risk.level = RiskLevel.CRITICAL then
      withSlow ++ [{ id := ids 2, kind := "EMERGENCY", priority := 90,
                     params := [("mode", JVal.jstr "HOLD")],
                     rationale := "Critical risk; hold until operator review" }]
    else withSlow
  List.insertionSort (fun a b => b.priority ≤ a.priority) withEmergency

/-- The loop body of `DefaultProposalModule.run`: one proposal per intent,
in intent order, action and bounds chosen by the intent kind. -/
def proposalRunAux (ids : ℕ → String) (world : WorldState) :
    ℕ → List Intent → List Proposal
  | _, [] => []
  | n, intent :: rest =>
    let ab : String × JDict :=
      if intent.kind = "CONTINUE" then
        ("Maintain current profile", [("max_delta", JVal.jstr "minimal")])
      else if intent.kind = "SLOW_ROLL" then
        ("Reduce operational rate",
         [("rate_multiplier", jgetD intent.params "rate_multiplier" (JVal.jnum 0.6))])
      else if intent.kind = "EMERGENCY" then
        ("Enter safe hold", [("hold", JVal.jbool true)])
      else
        ("Custom intent " ++ intent.kind, [])
    { id := ids n
      tick := world.tick
      source_intent := intent.kind
      action := ab.1
      bounds := ab.2
      expected_effect := [("risk_delta", JVal.jint (-10)),
                          ("clarity_delta", JVal.jint 5)] } ::
      proposalRunAux ids world (n + 1) rest

/-- `DefaultProposalModule.run`. -/
def DefaultProposalModule.run (ids : ℕ → String) (intents : List Intent)
    (world : WorldState) (risk : RiskReport) : List Proposal :=
  proposalRunAux ids world 0 intents

/-- The default wiring of `__main__`: all seven default modules, none of
which can fail (`Empty` error type). -/
def defaultModules (rng : ℕ → ℚ) (sensorTs : ℚ)
    (policyIds proposalIds govIds actIds : ℕ → String) : KernelModules Empty where
  sensor := fun tick prev => .ok (SyntheticSensorAdapter.read rng sensorTs tick prev)
  perception := fun frame prev => .ok (DefaultPerceptionModule.run frame prev)
  risk_module := fun world => .ok (DefaultRiskModule.run world)
  policy_module := fun world risk => .ok (DefaultPolicyModule.run policyIds world risk)
  proposal_module := fun intents world risk =>
    .ok (DefaultProposalModule.run proposalIds intents world risk)
  governance_module := fun ps world risk cfg =>
    .ok (DefaultGovernanceModule.run govIds ps world risk cfg)
  actuation_module := fun ds world => .ok (DefaultActuationModule.run actIds ds world)

theorem proposalRunAux_tick (ids : ℕ → String) (world : WorldState) (n : ℕ)
    (l : List Intent) : ∀ p ∈ proposalRunAux ids world n l, p.tick = world.tick := by
  induction l generalizing n with
  | nil => simp [proposalRunAux]
  | cons intent rest ih =>
    intro p hp
    simp only [proposalRunAux, List.mem_cons] at hp
    rcases hp with h | h
    · rw [h]
    · exact ih (n + 1) p h

theorem govRunAux_tick (ids : ℕ → String) (risk : RiskReport)
    (config : GovernanceConfig) (n : ℕ) (ps : List Proposal) (N : ℕ)
    (h : ∀ p ∈ ps, p.tick = N) :
    (∀ p ∈ (govRunAux ids risk config n ps).1, p.tick = N) ∧
    (∀ d ∈ (govRunAux ids risk config n ps).2, d.tick = N) := by
  induction ps generalizing n with
  | nil => simp [govRunAux]
  | cons p rest ih =>
    have hp := h p (List.mem_cons_self p rest)
    have hrest : ∀ q ∈ rest, q.tick = N := fun q hq => h q (List.mem_cons_of_mem p hq)
    obtain ⟨ih1, ih2⟩ := ih (n + 1) hrest
    constructor
    · intro q hq
      simp only [govRunAux, List.mem_cons] at hq
      rcases hq with hh | hh
      · rw [hh]
        exact hp
      · exact ih1 q hh
    · intro d hd
      simp only [govRunAux, List.mem_cons] at hd
      rcases hd with hh | hh
      · rw [hh]
        exact hp
      · exact ih2 d hh

theorem actRunAux_tick (ids : ℕ → String) (n : ℕ) (ds : List Decision) (N : ℕ)
    (h : ∀ d ∈ ds, d.tick = N) :
    ∀ c ∈ actRunAux ids n ds, c.tick = N := by
  induction ds generalizing n with
  | nil => simp [actRunAux]
  | cons d rest ih =>
    have hd := h d (List.mem_cons_self d rest)
    have hrest : ∀ e ∈ rest, e.tick = N := fun e he => h e (List.mem_cons_of_mem d he)
    intro c hc
    by_cases hs : d.status = ProposalStatus.AUTO_APPROVED
    · simp only [actRunAux, if_pos hs, List.mem_cons] at hc
      rcases hc with hh | hh
      · rw [hh]
        exact hd
      · exact ih (n + 1) hrest c hh
    · simp only [actRunAux, if_neg hs] at hc
      exact ih n hrest c hc

/-- The stage outputs of one default-wired tick as a pure composition
(`runStages` over `defaultModules` cannot fail). -/
def defaultStageOutputs (rng : ℕ → ℚ) (sensorTs : ℚ)
    (policyIds proposalIds govIds actIds : ℕ → String) (tick : ℕ)
    (prev : Option WorldState) (cfg : GovernanceConfig) : StageOutputs :=
  let frame := SyntheticSensorAdapter.read rng sensorTs tick prev
  let world := DefaultPerceptionModule.run frame prev
  let risk := DefaultRiskModule.run world
  let intents := DefaultPolicyModule.run policyIds world risk
  let proposals := DefaultProposalModule.run proposalIds intents world risk
  let gov := DefaultGovernanceModule.run govIds proposals world risk cfg
  let actuation := DefaultActuationModule.run actIds gov.2 world
  { frame := frame
    world := world
    risk := risk
    intents := intents
    proposals := gov.1
    decisions := gov.2
    actuation := actuation }

theorem runStages_default (rng : ℕ → ℚ) (sensorTs : ℚ)
    (pIds prIds gIds aIds : ℕ → String) (tick : ℕ) (prev : Option WorldState)
    (cfg : GovernanceConfig) :
    runStages (defaultModules rng sensorTs pIds prIds gIds aIds) tick prev cfg =
      Except.ok (defaultStageOutputs rng sensorTs pIds prIds gIds aIds tick prev cfg) :=
  rfl

theorem defaultStageOutputs_tick (rng : ℕ → ℚ) (sensorTs : ℚ)
    (pIds prIds gIds aIds : ℕ → String) (tick : ℕ) (prev : Option WorldState)
    (cfg : GovernanceConfig) :
    (defaultStageOutputs rng sensorTs pIds prIds gIds aIds tick prev cfg).frame.tick
        = tick ∧
    (defaultStageOutputs rng sensorTs pIds prIds gIds aIds tick prev cfg).world.tick
        = tick ∧
    (defaultStageOutputs rng sensorTs pIds prIds gIds aIds tick prev cfg).risk.tick
        = tick ∧
    (∀ p ∈ (defaultStageOutputs rng sensorTs pIds prIds gIds aIds tick prev cfg).proposals,
      p.tick = tick) ∧
    (∀ d ∈ (defaultStageOutputs rng sensorTs pIds prIds gIds aIds tick prev cfg).decisions,
      d.tick = tick) ∧
    (∀ c ∈ (defaultStageOutputs rng sensorTs pIds prIds gIds aIds tick prev cfg).actuation,
      c.tick = tick) := by
  have hworld : (DefaultPerceptionModule.run
      (SyntheticSensorAdapter.read rng sensorTs tick prev) prev).tick = tick := rfl
  have hprop : ∀ p ∈ DefaultProposalModule.run prIds
      (DefaultPolicyModule.run pIds
        (DefaultPerceptionModule.run (SyntheticSensorAdapter.read rng sensorTs tick prev) prev)
        (DefaultRiskModule.run
          (DefaultPerceptionModule.run (SyntheticSensorAdapter.read rng sensorTs tick prev) prev)))
      (DefaultPerceptionModule.run (SyntheticSensorAdapter.read rng sensorTs tick prev) prev)
      (DefaultRiskModule.run
        (DefaultPerceptionModule.run (SyntheticSensorAdapter.read rng sensorTs tick prev) prev)),
      p.tick = tick := by
    intro p hp
    exact proposalRunAux_tick prIds _ 0 _ p hp
  have hgov := govRunAux_tick gIds
    (DefaultRiskModule.run
      (DefaultPerceptionModule.run (SyntheticSensorAdapter.read rng sensorTs tick prev) prev))
    cfg 0
    (DefaultProposalModule.run prIds
      (DefaultPolicyModule.run pIds
        (DefaultPerceptionModule.run (SyntheticSensorAdapter.read rng sensorTs tick prev) prev)
        (DefaultRiskModule.run
          (DefaultPerceptionModule.run (SyntheticSensorAdapter.read rng sensorTs tick prev) prev)))
      (DefaultPerceptionModule.run (SyntheticSensorAdapter.read rng sensorTs tick prev) prev)
      (DefaultRiskModule.run
        (DefaultPerceptionModule.run (SyntheticSensorAdapter.read rng sensorTs tick prev) prev)))
    tick hprop
  refine ⟨rfl, rfl, rfl, hgov.1, hgov.2, ?_⟩
  exact actRunAux_tick aIds 0 _ tick hgov.2

/-- C10: every successful default-wired `step()` returns a snapshot whose
sensor frame, world state, risk report, proposals, decisions, actuation
commands and audit entries all carry the new tick id, with exactly the six
just-committed audit entries — the chain's last six elements in order. -/
theorem snapshot_tick_coherence (rng : ℕ → ℚ) (sensorTs : ℚ)
    (pIds prIds gIds aIds adIds : ℕ → String) (adTs : ℕ → ℚ) (s : KernelState)
    (r : TickResult)
    (hr : (AutonomyKernel.step sha256 (defaultModules rng sensorTs pIds prIds gIds aIds)
      adIds adTs s).2 = Except.ok r) :
    r.tick = s.tick_id + 1 ∧
    r.sensor_frame.tick = r.tick ∧
    r.world.tick = r.tick ∧
    r.risk.tick = r.tick ∧
    (∀ p ∈ r.proposals, p.tick = r.tick) ∧
    (∀ d ∈ r.decisions, d.tick = r.tick) ∧
    (∀ c ∈ r.actuation, c.tick = r.tick) ∧
    (∀ a ∈ r.audit_entries, a.tick = r.tick) ∧
    r.audit_entries.length = 6 ∧
    (AutonomyKernel.step sha256 (defaultModules rng sensorTs pIds prIds gIds aIds)
      adIds adTs s).1.audit_chain = s.audit_chain ++ r.audit_entries := by
  have hok := runStages_default rng sensorTs pIds prIds gIds aIds (s.tick_id + 1)
    s.prev_world s.gov_cfg
  simp only [AutonomyKernel.step, hok] at hr ⊢
  rw [Except.ok.injEq] at hr
  subst hr
  obtain ⟨h1, h2, h3, h4, h5, h6⟩ := defaultStageOutputs_tick rng sensorTs pIds prIds
    gIds aIds (s.tick_id + 1) s.prev_world s.gov_cfg
  refine ⟨rfl, h1, h2, h3, h4, h5, h6, ?_, rfl, ?_⟩
  · intro a ha
    simp only [commitAudits, auditAppend, List.mem_cons, List.not_mem_nil,
      or_false] at ha
    rcases ha with h | h | h | h | h | h <;> rw [h]
  · simp [commitAudits, auditAppend]

/-- The first default-wired call, with constant supplies. -/
def wDefRun : KernelState × Except Empty TickResult :=
  AutonomyKernel.step sha256
    (defaultModules (fun _ => 1/2) 0 (fun _ => "p") (fun _ => "q") (fun _ => "g")
      (fun _ => "a"))
    (fun _ => "d") (fun _ => 0) (AutonomyKernel.init mainConfig)

/-- Concrete check of C10 on the first default-wired tick. -/
theorem snapshot_tick_coherence_witness :
    wDefRun.2.toOption.map TickResult.tick = some 1 ∧
    wDefRun.2.toOption.map (fun r => r.world.tick) = some 1 ∧
    wDefRun.2.toOption.map (fun r => r.audit_entries.length) = some 6 := by
  cases hE : wDefRun.2 with
  | error e => exact e.elim
  | ok r =>
    have h := snapshot_tick_coherence (fun _ => 1/2) 0 (fun _ => "p") (fun _ => "q")
      (fun _ => "g") (fun _ => "a") (fun _ => "d") (fun _ => 0)
      (AutonomyKernel.init mainConfig) r hE
    obtain ⟨ht, hsf, hw, hrk, hp, hd, hc, ha, hlen, hchain⟩ := h
    refine ⟨?_, ?_, ?_⟩
    · simp [Except.toOption, ht, AutonomyKernel.init]
    · simp [Except.toOption, hw, ht, AutonomyKernel.init]
    · simp [Except.toOption, hlen]
